import Mathlib

/-!
Verification of the agdsn/ldap-openfga-sync reconciliation engine.

Shallow embedding of the repository's data model and operations:
* `models.py` — the `GroupMembership` diffsync model (pydantic validation of
  its declared fields, and the create/delete hooks that queue pending
  operations on the adapter).
* `ldap_adapter.py` — `_add_membership` and `_load_using_member_attribute`
  (source-side loading, scope filtering, subject resolution).
* `openfga_adapter.py` — the sync-groups skip in `load`, the dry-run gate in
  `add_membership` / `remove_membership`, and `execute_pending_operations`.
* `sync.py` — `sync_ldap_to_openfga`, the run orchestrator.

The diff computation itself lives in the third-party `diffsync` library
(`Adapter.sync_from`), which is not part of this repository; it is modelled
from the spec where marked.
-/

namespace LdapOpenfgaSync

/-- Embedding of the diffsync model `GroupMembership` from models.py:
identifier fields `user_username` and `group_name`, no attributes.
Equality is structural over the identifier pair. -/
structure GroupMembership where
  user_username : String
  group_name : String
deriving DecidableEq, Repr

/-- A FactSet: memberships unique by (subject, group). -/
abbrev FactSet := Finset GroupMembership

instance : LinearOrder GroupMembership :=
  LinearOrder.lift' (fun f => toLex (f.user_username, f.group_name))
    (fun a b h => by
      cases a; cases b
      simpa [toLex, Prod.ext_iff, GroupMembership.mk.injEq] using h)

/-- The `sync_groups` configuration on both adapters
(`Optional[Set[str]]`): `none` means no SYNC_GROUPS configured, i.e.
sync all groups. -/
abbrev SyncGroups := Option (Finset String)

/-- Scope test applied by both adapters: with `sync_groups = None` every
group passes; otherwise only the configured groups pass (the skip at
openfga_adapter.py lines 113-115 and ldap_adapter.py lines 210-213). -/
def inScope : SyncGroups → String → Bool
  | none, _ => true
  | some gs, g => decide (g ∈ gs)

/-- Restriction of a FactSet to the facts whose group passes the scope
test; this is what each adapter's `load` leaves in its store. -/
def filterScope (Z : SyncGroups) (s : FactSet) : FactSet :=
  s.filter (fun f => inScope Z f.group_name)

/-- Pydantic construction of `GroupMembership(**kwargs)` as declared in
models.py lines 9-19: the declared fields `user_username : str` and
`group_name : str` are required; `user_email` is not a declared field,
so supplying it cannot satisfy `user_username`. Each argument is `some`
exactly when the call site passes that keyword. Construction fails
validation (raises) when a required declared field is missing. -/
def groupMembershipInit (user_username user_email group_name : Option String) :
    Except String GroupMembership :=
  match user_username, group_name with
  | some u, some g => .ok ⟨u, g⟩
  | none, _ => .error "ValidationError: user_username field required"
  | some _, none => .error "ValidationError: group_name field required"

namespace LDAPAdapter

/-- Embedding of `LDAPAdapter._add_membership` (ldap_adapter.py lines
122-129): constructs `GroupMembership(user_email=email,
group_name=group_name)` — note the keyword `user_email`, while the model
declares `user_username` — then would add it to the store. -/
def add_membership (email group_name : String) : Except String GroupMembership :=
  groupMembershipInit none (some email) (some group_name)

/-- One LDAP group search result as consumed by
`_load_using_member_attribute`: the entry DN, the first `cn` value when
present, and for each value of the member attribute the result of
`extract_email_from_dn` (`some email` when resolution succeeded, `none`
when it failed). -/
structure LdapGroupEntry where
  dn : String
  cn : Option String
  members : List (Option String)
deriving DecidableEq, Repr

/-- Embedding of `LDAPAdapter._get_groups_to_sync` (ldap_adapter.py lines
241-269): the configured sync_groups when set, otherwise every `cn`
discovered from the group search results (entries with an empty DN or no
cn are skipped by the discovery loop). -/
def get_groups_to_sync (Z : SyncGroups) (entries : List LdapGroupEntry) : Finset String :=
  match Z with
  | some gs => gs
  | none => ((entries.filter (fun e => e.dn ≠ "")).filterMap (fun e => e.cn)).toFinset

/-- Inner loop of `_load_using_member_attribute` over one group's member
values: unresolved members are skipped with a warning; resolved members
go through `_add_membership`, whose exception propagates. -/
def processMembers (group_name : String) (members : List (Option String))
    (acc : List GroupMembership) : Except String (List GroupMembership) :=
  match members with
  | [] => .ok acc
  | none :: rest => processMembers group_name rest acc
  | some email :: rest =>
    match add_membership email group_name with
    | .error e => .error e
    | .ok m => processMembers group_name rest (acc ++ [m])

/-- Outer loop of `_load_using_member_attribute` (ldap_adapter.py lines
198-231) over the group search results: entries with empty DN or no cn
are skipped, groups not in the groups-to-sync set are skipped, and the
members of every remaining group are processed in order. -/
def processEntries (groups : Finset String) (entries : List LdapGroupEntry)
    (acc : List GroupMembership) : Except String (List GroupMembership) :=
  match entries with
  | [] => .ok acc
  | e :: rest =>
    if e.dn = "" then processEntries groups rest acc
    else
      match e.cn with
      | none => processEntries groups rest acc
      | some g =>
        if g ∈ groups then
          match processMembers g e.members acc with
          | .error err => .error err
          | .ok acc2 => processEntries groups rest acc2
        else processEntries groups rest acc

/-- Embedding of `LDAPAdapter._load_using_member_attribute`: resolve the
groups to sync, then walk every group entry adding a membership per
resolved member. The result is the loaded source memberships, or the
first exception raised. -/
def load_using_member_attribute (Z : SyncGroups) (entries : List LdapGroupEntry) :
    Except String (List GroupMembership) :=
  processEntries (get_groups_to_sync Z entries) entries []

end LDAPAdapter

/-- Kind of a queued pending operation, the first component of the tuples
appended to `adapter.pending_operations` in models.py lines 30 and 39. -/
inductive OpKind where
  | create
  | delete
deriving DecidableEq, Repr

/-- A queued pending operation `(kind, user_username, group_name)` as
appended by `GroupMembership.create` / `GroupMembership.delete`
(models.py lines 21-42). -/
structure Operation where
  kind : OpKind
  fact : GroupMembership
deriving DecidableEq, Repr

/-- The facts the source asserts but the target lacks. Modelled from the
spec: the diff computed by the third-party diffsync library over the two
adapters' stores, `toCreate = filteredSource − filteredTarget` (spec
section 4.2 step 2). -/
def toCreate (S T : FactSet) : FactSet := S \ T

/-- The facts the target has but the source no longer asserts. Modelled
from the spec: `toDelete = filteredTarget − filteredSource` (spec section
4.2 step 3). -/
def toDelete (S T : FactSet) : FactSet := T \ S

/-- Modelled from the spec: `Adapter.sync_from` of the third-party
diffsync library, which is not part of this repository. It diffs the two
stores by the model identifiers and invokes `GroupMembership.create` for
each source-only fact and `GroupMembership.delete` for each target-only
fact (models.py lines 21-42 queue these on `adapter.pending_operations`);
per spec section 4.3 step 5 every `toCreate` entry is queued before every
`toDelete` entry. -/
def sync_from (S T : FactSet) : List Operation :=
  ((toCreate S T).sort (· ≤ ·)).map (fun f => ⟨.create, f⟩) ++
    ((toDelete S T).sort (· ≤ ·)).map (fun f => ⟨.delete, f⟩)

namespace OpenFGAAdapter

/-- Effect of one write against the OpenFGA membership relation:
`add_membership` writes the tuple (openfga_adapter.py lines 146-154),
`remove_membership` deletes it (lines 168-176). -/
def applyOperation (t : FactSet) (op : Operation) : FactSet :=
  match op.kind with
  | .create => insert op.fact t
  | .delete => t.erase op.fact

/-- Embedding of `OpenFGAAdapter.execute_pending_operations`
(openfga_adapter.py lines 183-198) together with the dry-run gate inside
`add_membership` / `remove_membership` (lines 141-143 and 163-165): the
queued operations are replayed in order; under dry-run each call returns
before issuing any write; otherwise the write is attempted and a failure
(`fail op = true`, the SDK call raising) propagates, aborting the loop.
Returns the final target relation, the operations whose writes were
issued, in order, and the failing operation if any. -/
def execute_pending_operations (dryRun : Bool) (fail : Operation → Bool)
    (t : FactSet) : List Operation → FactSet × List Operation × Option Operation
  | [] => (t, [], none)
  | op :: rest =>
    if dryRun then execute_pending_operations dryRun fail t rest
    else if fail op then (t, [], some op)
    else
      let r := execute_pending_operations dryRun fail (applyOperation t op) rest
      (r.1, op :: r.2.1, r.2.2)

end OpenFGAAdapter

/-- Result of one orchestrated run of `sync_ldap_to_openfga`. -/
structure RunResult where
  target : FactSet
  plan : List Operation
  applied : List Operation
  failed : Option Operation
  aborted : Bool
deriving DecidableEq

/-- Embedding of the orchestrator `sync_ldap_to_openfga` (sync.py lines
45-99). `srcLoad` and `tgtLoad` are the outcomes of `ldap_adapter.load()`
and `openfga_adapter.load()` — each either the scope-filtered store it
leaves behind or the exception it raised. A load exception is caught by
the `except` clause (line 92) and the run exits before `sync_from` or
any write; otherwise the pending operations from `sync_from` are
executed against the target store `targetStore`, under the dry-run flag.
A write failure likewise reaches the `except` clause after the partial
application. -/
def sync_ldap_to_openfga (dryRun : Bool) (fail : Operation → Bool)
    (srcLoad tgtLoad : Except String FactSet) (targetStore : FactSet) : RunResult :=
  match srcLoad with
  | .error _ => ⟨targetStore, [], [], none, true⟩
  | .ok S =>
    match tgtLoad with
    | .error _ => ⟨targetStore, [], [], none, true⟩
    | .ok T =>
      let ops := sync_from S T
      let r := OpenFGAAdapter.execute_pending_operations dryRun fail targetStore ops
      ⟨r.1, ops, r.2.1, r.2.2, (r.2.2).isSome⟩

/-! Helper lemmas about the executor and the queued plan. -/

namespace OpenFGAAdapter

theorem execute_dryRun (fail : Operation → Bool) (t : FactSet) (ops : List Operation) :
    execute_pending_operations true fail t ops = (t, [], none) := by
  induction ops with
  | nil => rfl
  | cons op rest ih => simpa [execute_pending_operations] using ih

theorem execute_nofail (fail : Operation → Bool) (ops : List Operation) (t : FactSet)
    (h : ∀ op ∈ ops, fail op = false) :
    execute_pending_operations false fail t ops = (ops.foldl applyOperation t, ops, none) := by
  induction ops generalizing t with
  | nil => rfl
  | cons op rest ih =>
    have hop : fail op = false := h op (List.mem_cons_self op rest)
    have hrest : ∀ o ∈ rest, fail o = false := fun o ho => h o (List.mem_cons_of_mem op ho)
    simp [execute_pending_operations, hop, ih _ hrest]

theorem foldl_creates (l : List GroupMembership) (t : FactSet) :
    (l.map (fun f => Operation.mk .create f)).foldl applyOperation t = t ∪ l.toFinset := by
  induction l generalizing t with
  | nil => simp
  | cons f rest ih =>
    simp only [List.map_cons, List.foldl_cons, List.toFinset_cons]
    rw [show applyOperation t ⟨.create, f⟩ = insert f t from rfl, ih,
      Finset.insert_union, Finset.union_insert]

theorem foldl_deletes (l : List GroupMembership) (t : FactSet) :
    (l.map (fun f => Operation.mk .delete f)).foldl applyOperation t = t \ l.toFinset := by
  induction l generalizing t with
  | nil => simp
  | cons f rest ih =>
    simp only [List.map_cons, List.foldl_cons, List.toFinset_cons]
    rw [show applyOperation t ⟨.delete, f⟩ = t.erase f from rfl, ih]
    ext x
    simp only [Finset.mem_sdiff, Finset.mem_erase, Finset.mem_insert]
    tauto

theorem mem_execute_of_not_touched (dryRun : Bool) (fail : Operation → Bool)
    (ops : List Operation) (t : FactSet) (f : GroupMembership)
    (hf : f ∈ t) (hops : ∀ op ∈ ops, op.fact ≠ f) :
    f ∈ (execute_pending_operations dryRun fail t ops).1 := by
  induction ops generalizing t with
  | nil => simpa [execute_pending_operations]
  | cons op rest ih =>
    have hop : op.fact ≠ f := hops op (List.mem_cons_self op rest)
    have hrest : ∀ o ∈ rest, o.fact ≠ f := fun o ho => hops o (List.mem_cons_of_mem op ho)
    by_cases hd : dryRun
    · subst hd
      simpa [execute_pending_operations] using ih t hf hrest
    · simp only [Bool.not_eq_true] at hd
      subst hd
      by_cases hfail : fail op
      · simpa [execute_pending_operations, hfail]
      · have hmem : f ∈ applyOperation t op := by
          unfold applyOperation
          match op with
          | ⟨.create, g⟩ => exact Finset.mem_insert_of_mem hf
          | ⟨.delete, g⟩ => exact Finset.mem_erase.2 ⟨Ne.symm hop, hf⟩
        simpa [execute_pending_operations, hfail] using ih _ hmem hrest

end OpenFGAAdapter

theorem foldl_sync_from (S T target : FactSet) :
    (sync_from S T).foldl OpenFGAAdapter.applyOperation target
      = (target ∪ toCreate S T) \ toDelete S T := by
  unfold sync_from
  rw [List.foldl_append, OpenFGAAdapter.foldl_creates, OpenFGAAdapter.foldl_deletes,
    Finset.sort_toFinset, Finset.sort_toFinset]

theorem sync_from_fact_mem (S T : FactSet) (op : Operation) (h : op ∈ sync_from S T) :
    op.fact ∈ S ∪ T := by
  unfold sync_from at h
  rcases List.mem_append.1 h with h | h
  · obtain ⟨g, hg, rfl⟩ := List.mem_map.1 h
    exact Finset.mem_union_left _ (Finset.mem_sdiff.1 ((Finset.mem_sort _).1 hg)).1
  · obtain ⟨g, hg, rfl⟩ := List.mem_map.1 h
    exact Finset.mem_union_right _ (Finset.mem_sdiff.1 ((Finset.mem_sort _).1 hg)).1

theorem filterScope_converged (S T : FactSet) (Z : SyncGroups) :
    filterScope Z ((T ∪ toCreate (filterScope Z S) (filterScope Z T))
        \ toDelete (filterScope Z S) (filterScope Z T))
      = filterScope Z S := by
  ext f
  simp only [filterScope, toCreate, toDelete, Finset.mem_filter, Finset.mem_sdiff,
    Finset.mem_union]
  tauto

/-- C1: for every source FactSet S, target FactSet T and scope Z, a live
(non-dry-run) run whose loads succeed and whose writes all succeed leaves
the target with scoped subset equal to the scoped subset of S
(convergence). -/
theorem c1_convergence (S T : FactSet) (Z : SyncGroups) (fail : Operation → Bool)
    (hfail : ∀ op, fail op = false) :
    filterScope Z (sync_ldap_to_openfga false fail (.ok (filterScope Z S))
        (.ok (filterScope Z T)) T).target
      = filterScope Z S := by
  have h1 : (sync_ldap_to_openfga false fail (.ok (filterScope Z S))
        (.ok (filterScope Z T)) T).target
      = (OpenFGAAdapter.execute_pending_operations false fail T
          (sync_from (filterScope Z S) (filterScope Z T))).1 := rfl
  rw [h1, OpenFGAAdapter.execute_nofail fail _ T (fun op _ => hfail op)]
  simpa [foldl_sync_from] using filterScope_converged S T Z

/-- Witness for C1 at the spec's own example: S = {(alice,dev),(bob,dev)},
T = {(alice,dev)}, Z = Restricted({dev}). -/
theorem c1_convergence_witness :
    filterScope (some {"dev"}) (sync_ldap_to_openfga false (fun _ => false)
        (.ok (filterScope (some {"dev"}) {⟨"alice", "dev"⟩, ⟨"bob", "dev"⟩}))
        (.ok (filterScope (some {"dev"}) {⟨"alice", "dev"⟩}))
        {⟨"alice", "dev"⟩}).target
      = filterScope (some {"dev"}) {⟨"alice", "dev"⟩, ⟨"bob", "dev"⟩} :=
  c1_convergence {⟨"alice", "dev"⟩, ⟨"bob", "dev"⟩} {⟨"alice", "dev"⟩}
    (some {"dev"}) (fun _ => false) (fun _ => rfl)

/-- C2: a fact whose group is outside the resolved scope survives any run
(dry or live, failing or not) untouched, and every queued operation of
the plan is about an in-scope group. -/
theorem c2_scope_isolation (S T : FactSet) (Z : SyncGroups) (f : GroupMembership)
    (dryRun : Bool) (fail : Operation → Bool)
    (hZ : inScope Z f.group_name = false) (hT : f ∈ T) :
    f ∈ (sync_ldap_to_openfga dryRun fail (.ok (filterScope Z S))
          (.ok (filterScope Z T)) T).target
      ∧ ∀ op ∈ (sync_ldap_to_openfga dryRun fail (.ok (filterScope Z S))
          (.ok (filterScope Z T)) T).plan,
          inScope Z op.fact.group_name = true := by
  have hscoped : ∀ op ∈ sync_from (filterScope Z S) (filterScope Z T),
      inScope Z op.fact.group_name = true := by
    intro op hop
    rcases Finset.mem_union.1 (sync_from_fact_mem _ _ op hop) with h | h
    · exact (Finset.mem_filter.1 h).2
    · exact (Finset.mem_filter.1 h).2
  refine ⟨?_, hscoped⟩
  have h1 : (sync_ldap_to_openfga dryRun fail (.ok (filterScope Z S))
        (.ok (filterScope Z T)) T).target
      = (OpenFGAAdapter.execute_pending_operations dryRun fail T
          (sync_from (filterScope Z S) (filterScope Z T))).1 := rfl
  rw [h1]
  refine OpenFGAAdapter.mem_execute_of_not_touched dryRun fail _ T f hT ?_
  intro op hop heq
  have hsc := hscoped op hop
  rw [heq] at hsc
  rw [hZ] at hsc
  exact Bool.false_ne_true hsc

/-- Witness for C2 at the spec's own example: (frank, external-group) in
the target with Z = Restricted({dev, ops}) survives. -/
theorem c2_scope_isolation_witness :
    (⟨"frank", "external-group"⟩ : GroupMembership) ∈
        (sync_ldap_to_openfga false (fun _ => false)
          (.ok (filterScope (some {"dev", "ops"}) {⟨"alice", "dev"⟩}))
          (.ok (filterScope (some {"dev", "ops"}) {⟨"frank", "external-group"⟩}))
          {⟨"frank", "external-group"⟩}).target
      ∧ ∀ op ∈ (sync_ldap_to_openfga false (fun _ => false)
          (.ok (filterScope (some {"dev", "ops"}) {⟨"alice", "dev"⟩}))
          (.ok (filterScope (some {"dev", "ops"}) {⟨"frank", "external-group"⟩}))
          {⟨"frank", "external-group"⟩}).plan,
          inScope (some {"dev", "ops"}) op.fact.group_name = true :=
  c2_scope_isolation {⟨"alice", "dev"⟩} {⟨"frank", "external-group"⟩}
    (some {"dev", "ops"}) ⟨"frank", "external-group"⟩ false (fun _ => false)
    (by decide) (by decide)

/-- C4: in a live run whose writes succeed, the applied operations are
exactly a block of create entries followed by a block of delete entries —
every toCreate entry is applied before any toDelete entry. -/
theorem c4_creates_before_deletes (S T targetStore : FactSet) (fail : Operation → Bool)
    (hfail : ∀ op, fail op = false) :
    ∃ cs ds,
      (sync_ldap_to_openfga false fail (.ok S) (.ok T) targetStore).applied = cs ++ ds
        ∧ (∀ op ∈ cs, op.kind = OpKind.create)
        ∧ (∀ op ∈ ds, op.kind = OpKind.delete) := by
  have h1 : (sync_ldap_to_openfga false fail (.ok S) (.ok T) targetStore).applied
      = (OpenFGAAdapter.execute_pending_operations false fail targetStore
          (sync_from S T)).2.1 := rfl
  rw [h1, OpenFGAAdapter.execute_nofail fail _ targetStore (fun op _ => hfail op)]
  refine ⟨((toCreate S T).sort (· ≤ ·)).map (fun f => ⟨.create, f⟩),
    ((toDelete S T).sort (· ≤ ·)).map (fun f => ⟨.delete, f⟩), rfl, ?_, ?_⟩
  · intro op hop
    obtain ⟨g, _, rfl⟩ := List.mem_map.1 hop
    rfl
  · intro op hop
    obtain ⟨g, _, rfl⟩ := List.mem_map.1 hop
    rfl

/-- Witness for C4: S = {(a,g)}, T = {(b,g)} with no write failures. -/
theorem c4_creates_before_deletes_witness :
    ∃ cs ds,
      (sync_ldap_to_openfga false (fun _ => false)
          (.ok {⟨"a", "g"⟩}) (.ok {⟨"b", "g"⟩}) {⟨"b", "g"⟩}).applied = cs ++ ds
        ∧ (∀ op ∈ cs, op.kind = OpKind.create)
        ∧ (∀ op ∈ ds, op.kind = OpKind.delete) :=
  c4_creates_before_deletes {⟨"a", "g"⟩} {⟨"b", "g"⟩} {⟨"b", "g"⟩}
    (fun _ => false) (fun _ => rfl)

/-- C5: on the same loaded inputs, the dry run computes the identical
plan to the live run, issues no write (applied trace is empty), and
leaves the target store unchanged. -/
theorem c5_dry_run_non_mutation (S T targetStore : FactSet) (fail : Operation → Bool) :
    (sync_ldap_to_openfga true fail (.ok S) (.ok T) targetStore).plan
        = (sync_ldap_to_openfga false fail (.ok S) (.ok T) targetStore).plan
      ∧ (sync_ldap_to_openfga true fail (.ok S) (.ok T) targetStore).target = targetStore
      ∧ (sync_ldap_to_openfga true fail (.ok S) (.ok T) targetStore).applied = [] := by
  have h1 : (sync_ldap_to_openfga true fail (.ok S) (.ok T) targetStore)
      = ⟨(OpenFGAAdapter.execute_pending_operations true fail targetStore (sync_from S T)).1,
          sync_from S T,
          (OpenFGAAdapter.execute_pending_operations true fail targetStore (sync_from S T)).2.1,
          (OpenFGAAdapter.execute_pending_operations true fail targetStore (sync_from S T)).2.2,
          (OpenFGAAdapter.execute_pending_operations true fail targetStore
            (sync_from S T)).2.2.isSome⟩ := rfl
  rw [h1, OpenFGAAdapter.execute_dryRun]
  exact ⟨rfl, rfl, rfl⟩

/-- C6: if loading either side raises, the run aborts: the target store
is unchanged, no write was issued, and the run exits on the error path. -/
theorem c6_load_failure_aborts (dryRun : Bool) (fail : Operation → Bool)
    (srcLoad tgtLoad : Except String FactSet) (targetStore : FactSet)
    (h : (∃ e, srcLoad = .error e) ∨ (∃ e, tgtLoad = .error e)) :
    (sync_ldap_to_openfga dryRun fail srcLoad tgtLoad targetStore).target = targetStore
      ∧ (sync_ldap_to_openfga dryRun fail srcLoad tgtLoad targetStore).applied = []
      ∧ (sync_ldap_to_openfga dryRun fail srcLoad tgtLoad targetStore).aborted = true := by
  rcases h with ⟨e, he⟩ | ⟨e, he⟩
  · subst he
    exact ⟨rfl, rfl, rfl⟩
  · subst he
    match srcLoad with
    | .error _ => exact ⟨rfl, rfl, rfl⟩
    | .ok _ => exact ⟨rfl, rfl, rfl⟩

/-- Witness for C6: source-side load failure with a populated target. -/
theorem c6_load_failure_aborts_witness :
    (sync_ldap_to_openfga false (fun _ => false) (.error "LDAPError")
        (.ok ∅) {⟨"alice", "dev"⟩}).target = {⟨"alice", "dev"⟩}
      ∧ (sync_ldap_to_openfga false (fun _ => false) (.error "LDAPError")
          (.ok ∅) {⟨"alice", "dev"⟩}).applied = []
      ∧ (sync_ldap_to_openfga false (fun _ => false) (.error "LDAPError")
          (.ok ∅) {⟨"alice", "dev"⟩}).aborted = true :=
  c6_load_failure_aborts false (fun _ => false) (.error "LDAPError") (.ok ∅)
    {⟨"alice", "dev"⟩} (Or.inl ⟨"LDAPError", rfl⟩)

/-- C7: when the first failing write occurs, the exception propagates at
once: the executor returns with exactly the operations before the
failure applied (their effects on the target remain, no rollback), the
failing operation reported, and none of the remaining queue attempted. -/
theorem c7_apply_failure_propagates (fail : Operation → Bool) (t : FactSet)
    (ops1 ops2 : List Operation) (op : Operation)
    (h1 : ∀ o ∈ ops1, fail o = false) (h2 : fail op = true) :
    OpenFGAAdapter.execute_pending_operations false fail t (ops1 ++ op :: ops2)
      = (ops1.foldl OpenFGAAdapter.applyOperation t, ops1, some op) := by
  induction ops1 generalizing t with
  | nil => simp [OpenFGAAdapter.execute_pending_operations, h2]
  | cons o rest ih =>
    have ho : fail o = false := h1 o (List.mem_cons_self o rest)
    have hrest : ∀ x ∈ rest, fail x = false := fun x hx => h1 x (List.mem_cons_of_mem o hx)
    simp [OpenFGAAdapter.execute_pending_operations, ho, ih _ hrest]

/-- Witness for C7: one successful create, then a failing delete, then a
queued delete that is never attempted. -/
theorem c7_apply_failure_propagates_witness :
    OpenFGAAdapter.execute_pending_operations false
        (fun o => decide (o.kind = OpKind.delete)) ∅
        ([⟨OpKind.create, ⟨"a", "g"⟩⟩] ++
          (⟨OpKind.delete, ⟨"b", "g"⟩⟩ : Operation) :: [⟨OpKind.delete, ⟨"c", "g"⟩⟩])
      = ([⟨OpKind.create, ⟨"a", "g"⟩⟩].foldl OpenFGAAdapter.applyOperation ∅,
          [⟨OpKind.create, ⟨"a", "g"⟩⟩], some ⟨OpKind.delete, ⟨"b", "g"⟩⟩) :=
  c7_apply_failure_propagates (fun o => decide (o.kind = OpKind.delete)) ∅
    [⟨OpKind.create, ⟨"a", "g"⟩⟩] [⟨OpKind.delete, ⟨"c", "g"⟩⟩]
    ⟨OpKind.delete, ⟨"b", "g"⟩⟩ (by decide) (by decide)

/-- C8: reconciling a FactSet against an identical target yields the
empty plan: no create, no delete, nothing queued. -/
theorem c8_idempotence (S : FactSet) (Z : SyncGroups) :
    toCreate (filterScope Z S) (filterScope Z S) = ∅
      ∧ toDelete (filterScope Z S) (filterScope Z S) = ∅
      ∧ sync_from (filterScope Z S) (filterScope Z S) = [] := by
  refine ⟨Finset.sdiff_self _, Finset.sdiff_self _, ?_⟩
  simp [sync_from, toCreate, toDelete]

/-- C9: the computed toCreate and toDelete sets are disjoint, and no fact
appears both as a create entry and as a delete entry of the queued
pending-operations list. -/
theorem c9_disjointness (S T : FactSet) :
    toCreate S T ∩ toDelete S T = ∅
      ∧ ∀ f : GroupMembership,
          ¬((⟨OpKind.create, f⟩ : Operation) ∈ sync_from S T
            ∧ (⟨OpKind.delete, f⟩ : Operation) ∈ sync_from S T) := by
  constructor
  · ext f
    simp only [toCreate, toDelete, Finset.mem_inter, Finset.mem_sdiff,
      Finset.not_mem_empty, iff_false]
    tauto
  · intro f ⟨hc, hd⟩
    have hcf : f ∈ toCreate S T := by
      rcases List.mem_append.1 hc with h | h
      · obtain ⟨g, hg, hgeq⟩ := List.mem_map.1 h
        obtain ⟨-, rfl⟩ : OpKind.create = OpKind.create ∧ g = f := by
          simpa [Operation.mk.injEq] using hgeq
        exact (Finset.mem_sort _).1 hg
      · obtain ⟨g, _, hgeq⟩ := List.mem_map.1 h
        exact absurd hgeq (by simp [Operation.mk.injEq])
    have hdf : f ∈ toDelete S T := by
      rcases List.mem_append.1 hd with h | h
      · obtain ⟨g, _, hgeq⟩ := List.mem_map.1 h
        exact absurd hgeq (by simp [Operation.mk.injEq])
      · obtain ⟨g, hg, hgeq⟩ := List.mem_map.1 h
        obtain ⟨-, rfl⟩ : OpKind.delete = OpKind.delete ∧ g = f := by
          simpa [Operation.mk.injEq] using hgeq
        exact (Finset.mem_sort _).1 hg
    have := Finset.mem_sdiff.1 hcf
    have := Finset.mem_sdiff.1 hdf
    tauto

namespace LDAPAdapter

theorem processMembers_error (g : String) (members : List (Option String))
    (acc : List GroupMembership) (email : String) (hm : some email ∈ members) :
    ∃ err, processMembers g members acc = .error err := by
  induction members generalizing acc with
  | nil => cases hm
  | cons m rest ih =>
    match m with
    | none =>
      have : some email ∈ rest := by
        rcases List.mem_cons.1 hm with h | h
        · cases h
        · exact h
      simpa [processMembers] using ih acc this
    | some e => exact ⟨"ValidationError: user_username field required", rfl⟩

theorem processEntries_error (groups : Finset String)
    (entries : List LdapGroupEntry) (e : LdapGroupEntry) (g email : String)
    (he : e ∈ entries) (hdn : e.dn ≠ "") (hcn : e.cn = some g)
    (hg : g ∈ groups) (hm : some email ∈ e.members) (acc : List GroupMembership) :
    ∃ err, processEntries groups entries acc = .error err := by
  induction entries generalizing acc with
  | nil => cases he
  | cons e' rest ih =>
    rcases List.mem_cons.1 he with rfl | he'
    · obtain ⟨err, herr⟩ := processMembers_error g e.members acc email hm
      refine ⟨err, ?_⟩
      simp only [processEntries, if_neg hdn, hcn, if_pos hg, herr]
    · by_cases hdn' : e'.dn = ""
      · simpa [processEntries, hdn'] using ih he' acc
      · match hcn' : e'.cn with
        | none => simpa [processEntries, hdn', hcn'] using ih he' acc
        | some g' =>
          by_cases hg' : g' ∈ groups
          · match hpm : processMembers g' e'.members acc with
            | .error err =>
              exact ⟨err, by simp only [processEntries, if_neg hdn', hcn', if_pos hg', hpm]⟩
            | .ok acc2 =>
              obtain ⟨err, herr⟩ := ih he' acc2
              exact ⟨err, by simp only [processEntries, if_neg hdn', hcn', if_pos hg', hpm, herr]⟩
          · simpa [processEntries, hdn', hcn', hg'] using ih he' acc

end LDAPAdapter

/-- C3: for every LDAP dataset in which at least one processed group
member resolves to an email, loading the source side raises:
`_add_membership` passes the keyword `user_email` while the model
requires `user_username`, so the membership construction fails
validation and the exception propagates out of `load`. -/
theorem c3_ldap_load_always_raises (Z : SyncGroups)
    (entries : List LDAPAdapter.LdapGroupEntry) (e : LDAPAdapter.LdapGroupEntry)
    (g email : String) (he : e ∈ entries) (hdn : e.dn ≠ "") (hcn : e.cn = some g)
    (hg : g ∈ LDAPAdapter.get_groups_to_sync Z entries)
    (hm : some email ∈ e.members) :
    ∃ err, LDAPAdapter.load_using_member_attribute Z entries = .error err :=
  LDAPAdapter.processEntries_error (LDAPAdapter.get_groups_to_sync Z entries)
    entries e g email he hdn hcn hg hm []

/-- Witness for C3: one group with one resolvable member, groups
discovered from the search results. -/
theorem c3_ldap_load_always_raises_witness :
    ∃ err, LDAPAdapter.load_using_member_attribute none
        [⟨"cn=developers,ou=groups,dc=example,dc=com", some "developers",
          [some "alice@example.com"]⟩]
      = .error err :=
  c3_ldap_load_always_raises none
    [⟨"cn=developers,ou=groups,dc=example,dc=com", some "developers",
      [some "alice@example.com"]⟩]
    ⟨"cn=developers,ou=groups,dc=example,dc=com", some "developers",
      [some "alice@example.com"]⟩
    "developers" "alice@example.com"
    (List.mem_singleton.2 rfl) (by decide) rfl (by decide) (by decide)

/-- C10: evaluation of the source loader on an input that lists the same
membership twice. The claim says loading collapses the duplicate and
does not raise; the code instead raises a validation error on the first
member, because `_add_membership` passes `user_email` where the model
requires `user_username`. -/
theorem c10_duplicate_member_load_raises :
    LDAPAdapter.load_using_member_attribute (some {"developers"})
        [⟨"cn=developers,ou=groups,dc=example,dc=com", some "developers",
          [some "alice@example.com", some "alice@example.com"]⟩]
      = .error "ValidationError: user_username field required" := rfl

end LdapOpenfgaSync
